import Mathlib

/-!
Verification development for the video frame acquisition and GPU upload core.

The first part models `src/native/src/widget/video/player.rs`: the `Sample`
and `Event` data types, the lock-guarded shared event-queue state
`EventStreamShared`, the GStreamer callbacks (`new_sample`, `new_preroll`,
`eos`, `video-tags-changed`) and the consumer's `poll_next`.  Each callback
body runs under the queue's lock in the source, so it is modelled as one
atomic state transformer; the GStreamer side effects it consumes
(`try_pull_sample`, caps, duration queries) are inputs to the transformer.

The second part models `src/wgpu/src/sample.rs`: the per-stream GPU pipeline
state (`Stream`), the registry held by `Pipeline`, and the per-sample body of
`Pipeline::draw` (stream resolution, submit guard, result-channel drain,
preroll fast path, buffer-to-texture upload).
-/

namespace VideoPlayer

/-- Model of an opaque `gstreamer::Sample`: `buffer` is the result of
`get_buffer` + `map_readable` (the mapped bytes, or `none` on failure),
`caps` is the resolution extractable from the sample's caps. -/
structure GstSample where
  buffer : Option (List Nat)
  caps : Option (Int × Int)
deriving DecidableEq, Repr

/-- `Sample` from player.rs: a decoded frame plus identity metadata. -/
structure Sample where
  gst_sample : GstSample
  width : Int
  height : Int
  stream_id : Nat
  sample_id : Nat
  from_preroll : Bool
deriving DecidableEq, Repr

/-- The `PartialEq` impl for `Sample`: identity is `(stream_id, sample_id)`. -/
def Sample.beq (a b : Sample) : Bool :=
  a.stream_id == b.stream_id && a.sample_id == b.sample_id

/-- `Option<&Sample>` equality as used by `Some(sample) != stream.cur_sample.as_ref()`. -/
def optSampleEq : Option Sample → Option Sample → Bool
  | some a, some b => Sample.beq a b
  | none, none => true
  | _, _ => false

/-- `Event` from player.rs. -/
inductive Event where
  | SampleReceived (sample : Sample)
  | ResolutionChanged (width height : Int)
  | DurationChanged (duration : Nat)
deriving DecidableEq, Repr

/-- `EventStreamShared` from player.rs (the state under the `RwLock`).
A waker is modelled by a `Nat` token. -/
structure EventStreamShared where
  waker : Option Nat
  event_queue : List Event
  stream_id : Nat
  sample_id : Nat
deriving DecidableEq, Repr

/-- Result of one callback invocation: the new shared state, the events it
pushed onto `event_queue` (in push order) and the wakers it woke. -/
structure CallbackOut where
  state : EventStreamShared
  pushed : List Event
  woken : List Nat
deriving DecidableEq, Repr

/-- `sample_resolution` from player.rs. -/
def sample_resolution (s : GstSample) : Option (Int × Int) :=
  s.caps

/-- The `build_sample` closure shared by the `new_sample` / `new_preroll`
callbacks: pull a sample (`pull` is the result of `try_pull_sample` /
`try_pull_preroll`), extract its resolution, and stamp it with the stream id
and the current `sample_id` counter. -/
def build_sample (shared : EventStreamShared) (pull : Option GstSample)
    (preroll : Bool) : Option Sample :=
  match pull with
  | none => none
  | some g =>
    match sample_resolution g with
    | none => none
    | some (w, h) =>
      some { gst_sample := g, width := w, height := h, from_preroll := preroll,
             stream_id := shared.stream_id, sample_id := shared.sample_id }

/-- Common body of the `new_sample` (with `preroll = false`) and
`new_preroll` (with `preroll = true`) callbacks: build the sample, and only
if a waker is registered, bump `sample_id`, append the event and wake. -/
def sample_callback (preroll : Bool) (shared : EventStreamShared)
    (pull : Option GstSample) : CallbackOut :=
  match build_sample shared pull preroll with
  | some sample =>
    match shared.waker with
    | some waker =>
      { state := { shared with
          waker := none,
          sample_id := shared.sample_id + 1,
          event_queue := shared.event_queue ++ [Event.SampleReceived sample] },
        pushed := [Event.SampleReceived sample],
        woken := [waker] }
    | none => { state := shared, pushed := [], woken := [] }
  | none => { state := shared, pushed := [], woken := [] }

/-- The `new_sample` callback. -/
def new_sample (shared : EventStreamShared) (pull : Option GstSample) : CallbackOut :=
  sample_callback false shared pull

/-- The `new_preroll` callback. -/
def new_preroll (shared : EventStreamShared) (pull : Option GstSample) : CallbackOut :=
  sample_callback true shared pull

/-- The `eos` callback: take the waker (if any) and wake it; the queue is
untouched. -/
def eos (shared : EventStreamShared) : CallbackOut :=
  match shared.waker with
  | some waker => { state := { shared with waker := none }, pushed := [], woken := [waker] }
  | none => { state := shared, pushed := [], woken := [] }

/-- The `video-tags-changed` handler: only if a waker is registered, push a
`ResolutionChanged` event (if the resolution query succeeds) and a
`DurationChanged` event (if the duration query succeeds), then wake. -/
def video_tags_changed (shared : EventStreamShared) (res : Option (Int × Int))
    (dur : Option Nat) : CallbackOut :=
  match shared.waker with
  | none => { state := shared, pushed := [], woken := [] }
  | some waker =>
    let pushed :=
      (match res with
       | some (w, h) => [Event.ResolutionChanged w h]
       | none => []) ++
      (match dur with
       | some t => [Event.DurationChanged t]
       | none => [])
    { state := { shared with
        waker := none,
        event_queue := shared.event_queue ++ pushed },
      pushed := pushed,
      woken := [waker] }

/-- `Poll` result of `poll_next`. -/
inductive PollResult where
  | Ready (event : Event)
  | Pending
deriving DecidableEq, Repr

/-- Result of one `poll_next` call. -/
structure PollOut where
  state : EventStreamShared
  result : PollResult
  woken : List Nat
deriving DecidableEq, Repr

/-- `EventStream::poll_next` from player.rs: register the caller's waker
(replacing any previous one), then `Vec::pop` the queue: if an event is
there, remove the last (most recently pushed) one, wake the same waker by
reference and return it as `Ready`; otherwise return `Pending`. -/
def poll_next (shared : EventStreamShared) (waker : Nat) : PollOut :=
  let shared1 := { shared with waker := some waker }
  match shared1.event_queue.getLast? with
  | some event =>
    { state := { shared1 with event_queue := shared1.event_queue.dropLast },
      result := PollResult.Ready event,
      woken := [waker] }
  | none =>
    { state := shared1, result := PollResult.Pending, woken := [] }

/-- The initial shared state built by `EventStream::new`. -/
def initShared (stream_id : Nat) : EventStreamShared :=
  { waker := none, event_queue := [], stream_id := stream_id, sample_id := 0 }

/-- One atomic interaction with the queue: a decoder callback firing (with
its GStreamer inputs) or the consumer polling with a waker. -/
inductive Action where
  | newSample (pull : Option GstSample)
  | newPreroll (pull : Option GstSample)
  | eosSignal
  | tagsChanged (res : Option (Int × Int)) (dur : Option Nat)
  | pollNext (waker : Nat)
deriving DecidableEq, Repr

/-- Result of one step of the interleaving semantics: new state, the event
observed by the consumer (when the step was a poll that returned `Ready`),
the events pushed onto the queue, and the wakers woken. -/
structure StepOut where
  state : EventStreamShared
  observed : Option Event
  pushed : List Event
  woken : List Nat
deriving DecidableEq, Repr

/-- One step of the interleaving semantics of the queue. -/
def step (s : EventStreamShared) : Action → StepOut
  | Action.newSample pull =>
    let o := sample_callback false s pull
    { state := o.state, observed := none, pushed := o.pushed, woken := o.woken }
  | Action.newPreroll pull =>
    let o := sample_callback true s pull
    { state := o.state, observed := none, pushed := o.pushed, woken := o.woken }
  | Action.eosSignal =>
    let o := eos s
    { state := o.state, observed := none, pushed := o.pushed, woken := o.woken }
  | Action.tagsChanged res dur =>
    let o := video_tags_changed s res dur
    { state := o.state, observed := none, pushed := o.pushed, woken := o.woken }
  | Action.pollNext waker =>
    let o := poll_next s waker
    match o.result with
    | PollResult.Ready e =>
      { state := o.state, observed := some e, pushed := [], woken := o.woken }
    | PollResult.Pending =>
      { state := o.state, observed := none, pushed := [], woken := o.woken }

/-- Run a sequence of actions; returns the final state, the list of events
the consumer observed (in observation order) and the list of events pushed
onto the queue (in push order). -/
def run (s : EventStreamShared) : List Action → EventStreamShared × List Event × List Event
  | [] => (s, [], [])
  | a :: rest =>
    let o := step s a
    let r := run o.state rest
    (r.1, o.observed.toList ++ r.2.1, o.pushed ++ r.2.2)

/-- Is this event a `SampleReceived`? -/
def isSampleEvent : Event → Bool
  | Event.SampleReceived _ => true
  | _ => false

/-- The sample id carried by a `SampleReceived` event. -/
def eventSampleId : Event → Option Nat
  | Event.SampleReceived s => some s.sample_id
  | _ => none

/-- Sequence ids of the `SampleReceived` events of a list, in order. -/
def sampleIds (events : List Event) : List Nat :=
  events.filterMap eventSampleId

end VideoPlayer

namespace WgpuSample

/-- A wgpu buffer: identity, size in bytes, and byte contents. -/
structure WBuffer where
  id : Nat
  size : Nat
  contents : List Nat
deriving DecidableEq, Repr

/-- A `Message::CopySample` sent to the background copy worker: the
GStreamer sample and the mapped transfer buffer to fill. -/
structure CopyMsg where
  gst : VideoPlayer.GstSample
  buf : WBuffer
deriving DecidableEq, Repr

/-- Steps performed when a `Stream` is dropped (its `Drop` impl plus the
implicit release of its GPU fields afterwards). -/
inductive TeardownStep where
  | sendExit
  | joinWorker
  | releaseGpuResources
deriving DecidableEq, Repr

/-- Per-stream GPU pipeline state (`Stream` in sample.rs): the destination
texture contents, the recorded size, the last processed sample, the submit
channel to the worker and the result channel of completed transfer buffers. -/
structure Stream where
  cur_sample : Option VideoPlayer.Sample
  width : Nat
  height : Nat
  t_frame : List Nat
  submitted : List CopyMsg
  pendingResults : List WBuffer
deriving DecidableEq, Repr

/-- `Stream::new`: fresh worker/channels, fresh (uninitialised) texture,
no sample processed yet. -/
def Stream.new (width height : Nat) : Stream :=
  { cur_sample := none, width := width, height := height, t_frame := [],
    submitted := [], pendingResults := [] }

/-- The `Drop` impl for `Stream`: send `Message::Exit`, join the worker,
and only then release the GPU resources (fields dropped after the join). -/
def dropStreamSteps : List TeardownStep :=
  [TeardownStep.sendExit, TeardownStep.joinWorker, TeardownStep.releaseGpuResources]

/-- The background worker's handling of one `CopySample` message: map the
native buffer readable and copy its bytes into the transfer buffer, sending
it back on success; on extraction failure nothing is sent back. -/
def workerStep (msg : CopyMsg) : Option WBuffer :=
  match msg.gst.buffer with
  | some data => some { msg.buf with contents := data }
  | none => none

/-- Rust `as u32` on an `i32` value (two's-complement wrap). -/
def toU32 (x : Int) : Nat :=
  (x % 4294967296).toNat

/-- The stream registry and buffer-id supply of the sample `Pipeline`. -/
structure Pipeline where
  streams : List (Nat × Stream)
  nextBufId : Nat
deriving DecidableEq, Repr

/-- Lookup in the stream registry (`HashMap<u64, Stream>`). -/
def lookupStream : List (Nat × Stream) → Nat → Option Stream
  | [], _ => none
  | (k, v) :: rest, sid => if k = sid then some v else lookupStream rest sid

/-- Insert-or-replace in the stream registry. -/
def insertStream : List (Nat × Stream) → Nat → Stream → List (Nat × Stream)
  | [], sid, st => [(sid, st)]
  | (k, v) :: rest, sid, st =>
    if k = sid then (k, st) :: rest else (k, v) :: insertStream rest sid st

/-- Result of resolving the registry entry for a stream id and size. -/
structure ResolveOut where
  streams : List (Nat × Stream)
  stream : Stream
  teardown : List TeardownStep
  created : Bool
deriving DecidableEq, Repr

/-- The registry-entry resolution at the top of `Pipeline::draw`'s sample
loop: create the stream on first sighting; if it exists but its recorded
size differs from the sample's, drop it (tearing down the old worker) and
replace it with a fresh one. -/
def resolveStream (streams : List (Nat × Stream)) (sid width height : Nat) : ResolveOut :=
  match lookupStream streams sid with
  | some st =>
    if (st.width, st.height) ≠ (width, height) then
      { streams := insertStream streams sid (Stream.new width height),
        stream := Stream.new width height,
        teardown := dropStreamSteps, created := false }
    else
      { streams := streams, stream := st, teardown := [], created := false }
  | none =>
    { streams := insertStream streams sid (Stream.new width height),
      stream := Stream.new width height,
      teardown := [], created := true }

/-- `resolveStream` applied to a sample's stream id and dimensions. -/
def resolveFor (p : Pipeline) (s : VideoPlayer.Sample) : ResolveOut :=
  resolveStream p.streams s.stream_id (toU32 s.width) (toU32 s.height)

/-- The submit guard `Some(sample) != stream.cur_sample.as_ref()`, evaluated
against the stream the sample resolves to. -/
def freshSample (p : Pipeline) (s : VideoPlayer.Sample) : Bool :=
  !(VideoPlayer.optSampleEq (some s) (resolveFor p s).stream.cur_sample)

/-- Log of the externally visible actions of processing one sample in
`Pipeline::draw`. -/
structure DrawLog where
  teardown : List TeardownStep
  created : Bool
  allocatedTransfer : List WBuffer
  sentToWorker : List CopyMsg
  keptBuffer : Option WBuffer
  discardedBuffers : List WBuffer
  prerollStaging : List WBuffer
  copies : List (List Nat)
deriving DecidableEq, Repr

/-- The body of `Pipeline::draw` for one sample (the render-pass boilerplate
aside): resolve the stream entry; if the sample differs in identity from
`cur_sample`, allocate a mapped transfer buffer of `width * height * 4`
bytes (u32 arithmetic) and send it to the worker; drain the result channel
keeping only the last completed buffer; if the sample is an unprocessed
preroll, read its pixels synchronously into a staging buffer that replaces
the drained one (`none` models the `unwrap` panic when the pixels cannot be
mapped); if a buffer resulted, record the copy into the destination texture;
finally set `cur_sample` to the processed sample. -/
def drawSample (p : Pipeline) (sample : VideoPlayer.Sample) :
    Option (Pipeline × DrawLog) :=
  let r := resolveFor p sample
  let stream := r.stream
  let fresh := !(VideoPlayer.optSampleEq (some sample) stream.cur_sample)
  let size := (stream.width * stream.height * 4) % 4294967296
  let transfer : WBuffer :=
    { id := p.nextBufId, size := size, contents := List.replicate size 0 }
  let msg : CopyMsg := { gst := sample.gst_sample, buf := transfer }
  let stream1 :=
    if fresh then { stream with submitted := stream.submitted ++ [msg] } else stream
  let nextId1 := if fresh then p.nextBufId + 1 else p.nextBufId
  let allocated := if fresh then [transfer] else []
  let sent := if fresh then [msg] else []
  let kept := stream1.pendingResults.getLast?
  let discarded := stream1.pendingResults.dropLast
  let prerollPart : Option (Option WBuffer × Nat × List WBuffer) :=
    if sample.from_preroll then
      if fresh then
        match sample.gst_sample.buffer with
        | none => none
        | some data =>
          let staging : WBuffer :=
            { id := nextId1, size := data.length, contents := data }
          some (some staging, nextId1 + 1, [staging])
      else some (kept, nextId1, [])
    else some (kept, nextId1, [])
  match prerollPart with
  | none => none
  | some (upload, nextId2, stagings) =>
    let t_frame2 :=
      match upload with
      | some b => b.contents
      | none => stream1.t_frame
    let copies :=
      match upload with
      | some b => [b.contents]
      | none => []
    let stream2 :=
      { stream1 with
        pendingResults := []
        t_frame := t_frame2
        cur_sample := some sample }
    some ({ streams := insertStream r.streams sample.stream_id stream2,
            nextBufId := nextId2 },
          { teardown := r.teardown, created := r.created,
            allocatedTransfer := allocated, sentToWorker := sent,
            keptBuffer := kept, discardedBuffers := discarded,
            prerollStaging := stagings, copies := copies })

end WgpuSample

namespace VideoPlayer

/-- C9: `Sample` equality holds iff `stream_id` and `sample_id` agree; it
ignores pixel contents, dimensions and the preroll flag, so samples with
differing pixel data but equal identity compare equal. -/
theorem claim_C9_sample_identity :
    (∀ a b : Sample, Sample.beq a b = true ↔
      (a.stream_id = b.stream_id ∧ a.sample_id = b.sample_id)) ∧
    (∃ a b : Sample,
      a.gst_sample ≠ b.gst_sample ∧ a.width ≠ b.width ∧ a.height ≠ b.height ∧
      a.from_preroll ≠ b.from_preroll ∧ Sample.beq a b = true) := by
  constructor
  · intro a b
    simp [Sample.beq, Bool.and_eq_true, beq_iff_eq]
  · exact ⟨{ gst_sample := { buffer := some [1], caps := some (2, 2) },
             width := 2, height := 2, stream_id := 7, sample_id := 3,
             from_preroll := true },
           { gst_sample := { buffer := none, caps := none },
             width := 4, height := 6, stream_id := 7, sample_id := 3,
             from_preroll := false },
           by decide, by decide, by decide, by decide, by decide⟩

/-- C9 witness: the general equivalence applied at a concrete pair. -/
theorem claim_C9_sample_identity_witness :
    Sample.beq
      { gst_sample := { buffer := some [5], caps := none }, width := 1,
        height := 1, stream_id := 2, sample_id := 9, from_preroll := false }
      { gst_sample := { buffer := none, caps := some (3, 3) }, width := 8,
        height := 8, stream_id := 2, sample_id := 9, from_preroll := true }
      = true :=
  (claim_C9_sample_identity.1 _ _).mpr ⟨rfl, rfl⟩

/-- C3: `poll_next` first registers the supplied waker (replacing any
previous one); if the queue is non-empty it removes and returns the most
recently pushed (last) event as `Ready` and re-signals the same waker; on an
empty queue it returns `Pending` and wakes nobody. -/
theorem claim_C3_poll_next (s : EventStreamShared) (w : Nat) :
    (poll_next s w).state.waker = some w ∧
    (∀ q e, s.event_queue = q ++ [e] →
      (poll_next s w).result = PollResult.Ready e ∧
      (poll_next s w).state.event_queue = q ∧
      (poll_next s w).woken = [w]) ∧
    (s.event_queue = [] →
      (poll_next s w).result = PollResult.Pending ∧
      (poll_next s w).woken = [] ∧
      (poll_next s w).state = { s with waker := some w }) := by
  refine ⟨?_, ?_, ?_⟩
  · unfold poll_next
    cases h : s.event_queue.getLast? <;> simp [h]
  · intro q e hq
    unfold poll_next
    simp [hq, List.getLast?_concat, List.dropLast_concat]
  · intro hq
    unfold poll_next
    simp [hq]

/-- C3 witness: polling a queue holding one event yields it as `Ready`. -/
theorem claim_C3_poll_next_witness :
    (poll_next { waker := none, event_queue := [Event.DurationChanged 4],
                 stream_id := 1, sample_id := 0 } 6).result =
      PollResult.Ready (Event.DurationChanged 4) :=
  ((claim_C3_poll_next _ 6).2.1 [] (Event.DurationChanged 4) rfl).1

/-- C10: the `eos` callback takes and wakes the registered waker (if any)
but pushes nothing and leaves the queue, the stream id and the sequence
counter unchanged; there is no end-of-stream `Event` variant, and the woken
consumer's next poll of an otherwise empty queue returns `Pending`. -/
theorem claim_C10_eos (s : EventStreamShared) (w : Nat) :
    (eos s).state.event_queue = s.event_queue ∧
    (eos s).state.sample_id = s.sample_id ∧
    (eos s).state.stream_id = s.stream_id ∧
    (eos s).pushed = [] ∧
    (eos s).state.waker = none ∧
    (∀ wk, s.waker = some wk → (eos s).woken = [wk]) ∧
    (s.waker = none → (eos s).woken = [] ∧ (eos s).state = s) ∧
    (s.event_queue = [] →
      (poll_next (eos s).state w).result = PollResult.Pending) ∧
    (∀ e : Event, (∃ smp, e = Event.SampleReceived smp) ∨
      (∃ wd ht, e = Event.ResolutionChanged wd ht) ∨
      (∃ d, e = Event.DurationChanged d)) := by
  have hq : (eos s).state.event_queue = s.event_queue := by
    unfold eos; cases h : s.waker <;> simp [h]
  refine ⟨hq, ?_, ?_, ?_, ?_, ?_, ?_, ?_, ?_⟩
  · unfold eos; cases h : s.waker <;> simp [h]
  · unfold eos; cases h : s.waker <;> simp [h]
  · unfold eos; cases h : s.waker <;> simp [h]
  · unfold eos; cases h : s.waker <;> simp [h]
  · intro wk hwk
    unfold eos; simp [hwk]
  · intro hwk
    unfold eos; simp [hwk]
  · intro hemp
    unfold poll_next
    simp [hq, hemp]
  · intro e
    cases e with
    | SampleReceived smp => exact Or.inl ⟨smp, rfl⟩
    | ResolutionChanged wd ht => exact Or.inr (Or.inl ⟨wd, ht, rfl⟩)
    | DurationChanged d => exact Or.inr (Or.inr ⟨d, rfl⟩)

/-- C10 witness: `eos` with a registered waker on an empty queue wakes it,
and the following poll is `Pending`. -/
theorem claim_C10_eos_witness :
    (eos { waker := some 9, event_queue := [], stream_id := 3,
           sample_id := 2 }).woken = [9] ∧
    (poll_next (eos { waker := some 9, event_queue := [], stream_id := 3,
                      sample_id := 2 }).state 4).result = PollResult.Pending :=
  ⟨(claim_C10_eos _ 4).2.2.2.2.2.1 9 rfl,
   (claim_C10_eos _ 4).2.2.2.2.2.2.2.1 rfl⟩

/-- C1 as stated is false: a sample pulled by the `new_sample` callback
while no waker is registered is dropped, not enqueued.  Concretely, from the
initial state (no waker) a successful pull builds a sample, yet the callback
leaves the queue empty, pushes nothing, and a later poll finds nothing. -/
theorem claim_C1_counterexample :
    (build_sample (initShared 5)
      (some { buffer := some [1, 2, 3, 4], caps := some (1, 1) }) false).isSome
        = true ∧
    new_sample (initShared 5)
        (some { buffer := some [1, 2, 3, 4], caps := some (1, 1) }) =
      { state := initShared 5, pushed := [], woken := [] } ∧
    (poll_next (new_sample (initShared 5)
        (some { buffer := some [1, 2, 3, 4], caps := some (1, 1) })).state
        3).result = PollResult.Pending := by
  refine ⟨rfl, rfl, rfl⟩

/-- C1 amended: a decoder callback enqueues its event only when a waker is
registered; with a waker present the built sample's event is appended (and
the waker woken and cleared), while a sample pulled with no waker registered
is dropped and the state is left unchanged. -/
theorem claim_C1_push_only_with_waker (s : EventStreamShared)
    (pull : Option GstSample) (preroll : Bool) :
    (∀ smp, build_sample s pull preroll = some smp →
      (∀ wk, s.waker = some wk →
        sample_callback preroll s pull =
          { state := { s with
              waker := none
              sample_id := s.sample_id + 1
              event_queue := s.event_queue ++ [Event.SampleReceived smp] },
            pushed := [Event.SampleReceived smp], woken := [wk] }) ∧
      (s.waker = none →
        sample_callback preroll s pull = { state := s, pushed := [], woken := [] })) ∧
    (build_sample s pull preroll = none →
      sample_callback preroll s pull = { state := s, pushed := [], woken := [] }) := by
  constructor
  · intro smp hsmp
    constructor
    · intro wk hwk
      unfold sample_callback
      simp [hsmp, hwk]
    · intro hwk
      unfold sample_callback
      simp [hsmp, hwk]
  · intro hnone
    unfold sample_callback
    simp [hnone]

/-- C1 amended witness: with waker `7` registered, a pulled sample is
enqueued and the waker woken. -/
theorem claim_C1_push_only_with_waker_witness :
    sample_callback false
      { waker := some 7, event_queue := [], stream_id := 5, sample_id := 0 }
      (some { buffer := some [1, 2, 3, 4], caps := some (1, 1) }) =
      { state := { waker := none,
                   event_queue := [Event.SampleReceived
                     { gst_sample := { buffer := some [1, 2, 3, 4],
                                       caps := some (1, 1) },
                       width := 1, height := 1, stream_id := 5,
                       sample_id := 0, from_preroll := false }],
                   stream_id := 5, sample_id := 1 },
        pushed := [Event.SampleReceived
          { gst_sample := { buffer := some [1, 2, 3, 4], caps := some (1, 1) },
            width := 1, height := 1, stream_id := 5, sample_id := 0,
            from_preroll := false }],
        woken := [7] } :=
  ((claim_C1_push_only_with_waker
      { waker := some 7, event_queue := [], stream_id := 5, sample_id := 0 }
      (some { buffer := some [1, 2, 3, 4], caps := some (1, 1) }) false).1
    { gst_sample := { buffer := some [1, 2, 3, 4], caps := some (1, 1) },
      width := 1, height := 1, stream_id := 5, sample_id := 0,
      from_preroll := false } rfl).1 7 rfl

/-- `Sample.beq` is reflexive. -/
theorem Sample.beq_refl (a : Sample) : Sample.beq a a = true := by
  simp [Sample.beq]

/-- A successfully built sample carries the state's current counter value
and stream id. -/
theorem build_sample_fields (s : EventStreamShared) (pull : Option GstSample)
    (preroll : Bool) (smp : Sample)
    (h : build_sample s pull preroll = some smp) :
    smp.sample_id = s.sample_id ∧ smp.stream_id = s.stream_id ∧
    smp.from_preroll = preroll := by
  cases pull with
  | none => cases h
  | some g =>
    cases hc : sample_resolution g with
    | none =>
      simp only [build_sample, hc] at h
      exact Option.noConfusion h
    | some wh =>
      obtain ⟨w, ht⟩ := wh
      simp only [build_sample, hc, Option.some.injEq] at h
      subst h
      exact ⟨rfl, rfl, rfl⟩

/-- Each step either pushes no sample event and does not decrease the
counter, or pushes exactly the sample event stamped with the current
counter and increments the counter by one. -/
theorem step_pushed (s : EventStreamShared) (a : Action) :
    (sampleIds (step s a).pushed = [] ∧
      s.sample_id ≤ (step s a).state.sample_id) ∨
    (sampleIds (step s a).pushed = [s.sample_id] ∧
      (step s a).state.sample_id = s.sample_id + 1) := by
  cases a with
  | newSample pull =>
    cases hb : build_sample s pull false with
    | none =>
      refine Or.inl ⟨?_, ?_⟩ <;> simp [step, sample_callback, hb, sampleIds]
    | some smp =>
      cases hw : s.waker with
      | none =>
        refine Or.inl ⟨?_, ?_⟩ <;>
          simp [step, sample_callback, hb, hw, sampleIds]
      | some wk =>
        refine Or.inr ⟨?_, ?_⟩ <;>
          simp [step, sample_callback, hb, hw, sampleIds, eventSampleId,
            (build_sample_fields s pull false smp hb).1]
  | newPreroll pull =>
    cases hb : build_sample s pull true with
    | none =>
      refine Or.inl ⟨?_, ?_⟩ <;> simp [step, sample_callback, hb, sampleIds]
    | some smp =>
      cases hw : s.waker with
      | none =>
        refine Or.inl ⟨?_, ?_⟩ <;>
          simp [step, sample_callback, hb, hw, sampleIds]
      | some wk =>
        refine Or.inr ⟨?_, ?_⟩ <;>
          simp [step, sample_callback, hb, hw, sampleIds, eventSampleId,
            (build_sample_fields s pull true smp hb).1]
  | eosSignal =>
    cases hw : s.waker <;>
      (refine Or.inl ⟨?_, ?_⟩ <;> simp [step, eos, hw, sampleIds])
  | tagsChanged res dur =>
    cases hw : s.waker with
    | none =>
      refine Or.inl ⟨?_, ?_⟩ <;>
        simp [step, video_tags_changed, hw, sampleIds]
    | some wk =>
      refine Or.inl ⟨?_, ?_⟩
      · cases res with
        | none =>
          cases dur <;>
            simp [step, video_tags_changed, hw, sampleIds, eventSampleId]
        | some wh =>
          obtain ⟨w, ht⟩ := wh
          cases dur <;>
            simp [step, video_tags_changed, hw, sampleIds, eventSampleId]
      · simp [step, video_tags_changed, hw]
  | pollNext w =>
    cases hq : s.event_queue.getLast? <;>
      (refine Or.inl ⟨?_, ?_⟩ <;> simp [step, poll_next, hq, sampleIds])

/-- Over any run, the pushed sample events have strictly increasing ids, all
at least the starting counter, and the counter never decreases. -/
theorem run_pushed_mono (actions : List Action) (s : EventStreamShared) :
    (∀ x ∈ sampleIds (run s actions).2.2, s.sample_id ≤ x) ∧
    List.Chain' (· < ·) (sampleIds (run s actions).2.2) ∧
    s.sample_id ≤ (run s actions).1.sample_id := by
  induction actions generalizing s with
  | nil => simp [run, sampleIds]
  | cons a rest ih =>
    obtain ⟨ihlb, ihch, ihcnt⟩ := ih (step s a).state
    have hids : sampleIds (run s (a :: rest)).2.2 =
        sampleIds (step s a).pushed ++
          sampleIds (run (step s a).state rest).2.2 := by
      simp [run, sampleIds, List.filterMap_append]
    rcases step_pushed s a with ⟨hpush, hle⟩ | ⟨hpush, hcnt⟩
    · rw [hids, hpush, List.nil_append]
      exact ⟨fun x hx => Nat.le_trans hle (ihlb x hx), ihch,
        Nat.le_trans hle ihcnt⟩
    · rw [hids, hpush, List.singleton_append]
      refine ⟨?_, ?_, ?_⟩
      · intro x hx
        rcases List.mem_cons.mp hx with hx | hx
        · exact Nat.le_of_eq hx.symm
        · have := ihlb x hx
          omega
      · refine List.chain'_cons'.mpr ⟨?_, ihch⟩
        intro y hy
        have hmem := List.mem_of_mem_head? hy
        have := ihlb y hmem
        omega
      · refine Nat.le_trans (Nat.le_succ _) ?_
        have h2 := ihcnt
        rw [hcnt] at h2
        exact h2

/-- C8: the queue's sequence counter is monotonically non-decreasing over
every interleaving; a pushed sample event is stamped with the counter value
at push time, the counter is bumped exactly then, and the event is appended
atomically in the same step; consequently the sample events pushed over any
run carry strictly increasing, pairwise distinct sequence ids. -/
theorem claim_C8_sequence_ids (sid : Nat) (actions : List Action) :
    List.Chain' (· < ·) (sampleIds (run (initShared sid) actions).2.2) ∧
    List.Pairwise (· ≠ ·) (sampleIds (run (initShared sid) actions).2.2) ∧
    (∀ s a, s.sample_id ≤ (step s a).state.sample_id) ∧
    (∀ s a smp, (step s a).pushed = [Event.SampleReceived smp] →
      smp.sample_id = s.sample_id ∧
      (step s a).state.sample_id = s.sample_id + 1 ∧
      (step s a).state.event_queue =
        s.event_queue ++ [Event.SampleReceived smp]) := by
  have hch := (run_pushed_mono actions (initShared sid)).2.1
  refine ⟨hch, ?_, ?_, ?_⟩
  · exact (List.chain'_iff_pairwise.mp hch).imp (fun hab => Nat.ne_of_lt hab)
  · intro s a
    rcases step_pushed s a with ⟨_, hle⟩ | ⟨_, hcnt⟩
    · exact hle
    · rw [hcnt]; exact Nat.le_succ _
  · intro s a smp hpush
    cases a with
    | newSample pull =>
      cases hb : build_sample s pull false with
      | none => simp [step, sample_callback, hb] at hpush
      | some smp1 =>
        cases hw : s.waker with
        | none => simp [step, sample_callback, hb, hw] at hpush
        | some wk =>
          simp only [step, sample_callback, hb, hw, List.cons.injEq,
            Event.SampleReceived.injEq, and_true] at hpush
          subst hpush
          refine ⟨(build_sample_fields s pull false smp1 hb).1, ?_, ?_⟩ <;>
            simp [step, sample_callback, hb, hw]
    | newPreroll pull =>
      cases hb : build_sample s pull true with
      | none => simp [step, sample_callback, hb] at hpush
      | some smp1 =>
        cases hw : s.waker with
        | none => simp [step, sample_callback, hb, hw] at hpush
        | some wk =>
          simp only [step, sample_callback, hb, hw, List.cons.injEq,
            Event.SampleReceived.injEq, and_true] at hpush
          subst hpush
          refine ⟨(build_sample_fields s pull true smp1 hb).1, ?_, ?_⟩ <;>
            simp [step, sample_callback, hb, hw]
    | eosSignal =>
      cases hw : s.waker <;> simp [step, eos, hw] at hpush
    | tagsChanged res dur =>
      exfalso
      cases hw : s.waker with
      | none => simp [step, video_tags_changed, hw] at hpush
      | some wk =>
        cases res with
        | none => cases dur <;> simp [step, video_tags_changed, hw] at hpush
        | some wh =>
          obtain ⟨w, ht⟩ := wh
          cases dur <;> simp [step, video_tags_changed, hw] at hpush
    | pollNext w =>
      cases hq : s.event_queue.getLast? <;>
        simp [step, poll_next, hq] at hpush

/-- Every value a `some` observation compares below. -/
def obsLt (lastObs : Option Nat) (n : Nat) : Prop :=
  ∀ k, lastObs = some k → k < n

/-- No `SampleReceived` event occurs in the list. -/
def noSample (q : List Event) : Prop :=
  ∀ e ∈ q, isSampleEvent e = false

/-- Queue invariant relative to the id of the consumer's last observed
sample event (if any): every queued sample event is below the counter and
above the last observed id; the last observed id is below the counter; and
whenever a sample event is queued, no waker is registered, it sits at the
end of the queue, and it is the only one. -/
def Inv (s : EventStreamShared) (lastObs : Option Nat) : Prop :=
  (∀ smp, Event.SampleReceived smp ∈ s.event_queue →
    smp.sample_id < s.sample_id ∧ obsLt lastObs smp.sample_id) ∧
  obsLt lastObs s.sample_id ∧
  (noSample s.event_queue ∨
    (s.waker = none ∧ ∃ q smp,
      s.event_queue = q ++ [Event.SampleReceived smp] ∧ noSample q))

/-- Update the last-observed tracker with a step's observation. -/
def updObs (lastObs : Option Nat) : Option Event → Option Nat
  | some (Event.SampleReceived smp) => some smp.sample_id
  | some (Event.ResolutionChanged _ _) => lastObs
  | some (Event.DurationChanged _) => lastObs
  | none => lastObs

/-- The sample callbacks preserve the queue invariant. -/
theorem sample_callback_Inv (preroll : Bool) (s : EventStreamShared)
    (pull : Option GstSample) (lastObs : Option Nat) (h : Inv s lastObs) :
    Inv (sample_callback preroll s pull).state lastObs := by
  obtain ⟨h1, h2, h3⟩ := h
  cases hb : build_sample s pull preroll with
  | none =>
    simp only [sample_callback, hb]
    exact ⟨h1, h2, h3⟩
  | some smp =>
    cases hw : s.waker with
    | none =>
      simp only [sample_callback, hb, hw]
      exact ⟨h1, h2, h3⟩
    | some wk =>
      simp only [sample_callback, hb, hw]
      have hid := (build_sample_fields s pull preroll smp hb).1
      refine ⟨?_, ?_, ?_⟩
      · intro smp1 hmem
        rcases List.mem_append.mp hmem with hq | hsing
        · obtain ⟨hlt, hob⟩ := h1 smp1 hq
          exact ⟨Nat.lt_succ_of_lt hlt, hob⟩
        · have heq : smp1 = smp := by
            simpa using hsing
          subst heq
          rw [hid]
          exact ⟨Nat.lt_succ_self _, h2⟩
      · intro k hk
        exact Nat.lt_succ_of_lt (h2 k hk)
      · refine Or.inr ⟨rfl, s.event_queue, smp, rfl, ?_⟩
        rcases h3 with hns | ⟨hwk, _⟩
        · exact hns
        · rw [hw] at hwk
          cases hwk

/-- The `eos` callback preserves the queue invariant. -/
theorem eos_Inv (s : EventStreamShared) (lastObs : Option Nat)
    (h : Inv s lastObs) : Inv (eos s).state lastObs := by
  obtain ⟨h1, h2, h3⟩ := h
  cases hw : s.waker with
  | none =>
    simp only [eos, hw]
    exact ⟨h1, h2, h3⟩
  | some wk =>
    simp only [eos, hw]
    refine ⟨h1, h2, ?_⟩
    rcases h3 with hns | ⟨_, q, smp, hq, hns⟩
    · exact Or.inl hns
    · exact Or.inr ⟨rfl, q, smp, hq, hns⟩

/-- The `video-tags-changed` handler preserves the queue invariant. -/
theorem video_tags_changed_Inv (s : EventStreamShared)
    (res : Option (Int × Int)) (dur : Option Nat) (lastObs : Option Nat)
    (h : Inv s lastObs) :
    Inv (video_tags_changed s res dur).state lastObs := by
  obtain ⟨h1, h2, h3⟩ := h
  cases hw : s.waker with
  | none =>
    simp only [video_tags_changed, hw]
    exact ⟨h1, h2, h3⟩
  | some wk =>
    have hq_nos : noSample s.event_queue := by
      rcases h3 with hns | ⟨hwk, _⟩
      · exact hns
      · rw [hw] at hwk
        cases hwk
    have hnp : noSample
        ((match res with
          | some (w, h) => [Event.ResolutionChanged w h]
          | none => []) ++
         (match dur with
          | some t => [Event.DurationChanged t]
          | none => [])) := by
      intro e he
      rcases List.mem_append.mp he with hr | hd
      · cases res with
        | none => cases hr
        | some wh =>
          obtain ⟨w, ht⟩ := wh
          have : e = Event.ResolutionChanged w ht := by simpa using hr
          subst this
          rfl
      · cases dur with
        | none => cases hd
        | some t =>
          have : e = Event.DurationChanged t := by simpa using hd
          subst this
          rfl
    simp only [video_tags_changed, hw]
    refine ⟨?_, h2, Or.inl ?_⟩
    · intro smp hmem
      rcases List.mem_append.mp hmem with hq | hp
      · exact h1 smp hq
      · have := hnp _ hp
        simp [isSampleEvent] at this
    · intro e he
      rcases List.mem_append.mp he with hq | hp
      · exact hq_nos e hq
      · exact hnp e hp

/-- One step preserves the invariant (with the observation tracker updated),
and any observed sample event's id lies strictly above the last observed
one. -/
theorem step_Inv (s : EventStreamShared) (a : Action) (lastObs : Option Nat)
    (h : Inv s lastObs) :
    Inv (step s a).state (updObs lastObs (step s a).observed) ∧
    (∀ smp, (step s a).observed = some (Event.SampleReceived smp) →
      obsLt lastObs smp.sample_id) := by
  cases a with
  | newSample pull =>
    refine ⟨sample_callback_Inv false s pull lastObs h, ?_⟩
    intro smp hobs
    exact Option.noConfusion hobs
  | newPreroll pull =>
    refine ⟨sample_callback_Inv true s pull lastObs h, ?_⟩
    intro smp hobs
    exact Option.noConfusion hobs
  | eosSignal =>
    refine ⟨eos_Inv s lastObs h, ?_⟩
    intro smp hobs
    exact Option.noConfusion hobs
  | tagsChanged res dur =>
    refine ⟨video_tags_changed_Inv s res dur lastObs h, ?_⟩
    intro smp hobs
    exact Option.noConfusion hobs
  | pollNext w =>
    obtain ⟨h1, h2, h3⟩ := h
    cases hq : s.event_queue.getLast? with
    | none =>
      have hqe : s.event_queue = [] := by simpa using hq
      have hstep : step s (Action.pollNext w) =
          { state := { s with waker := some w }, observed := none,
            pushed := [], woken := [] } := by
        simp [step, poll_next, hq]
      rw [hstep]
      refine ⟨⟨h1, h2, Or.inl ?_⟩, ?_⟩
      · intro e he
        rw [hqe] at he
        cases he
      · intro smp hobs
        exact Option.noConfusion hobs
    | some e =>
      have hstep : step s (Action.pollNext w) =
          { state := { s with
              waker := some w
              event_queue := s.event_queue.dropLast },
            observed := some e, pushed := [], woken := [w] } := by
        simp [step, poll_next, hq]
      rw [hstep]
      rcases h3 with hns | ⟨hwk, q, smp, hqe, hns⟩
      · have hes : isSampleEvent e = false :=
          hns e (List.mem_of_mem_getLast? hq)
        cases e with
        | SampleReceived smp => simp [isSampleEvent] at hes
        | ResolutionChanged wd ht =>
          refine ⟨⟨?_, h2, Or.inl ?_⟩, ?_⟩
          · intro smp1 hmem
            exact h1 smp1 ((List.dropLast_sublist s.event_queue).mem hmem)
          · intro e1 he1
            exact hns e1 ((List.dropLast_sublist s.event_queue).mem he1)
          · intro smp hobs
            cases hobs
        | DurationChanged d =>
          refine ⟨⟨?_, h2, Or.inl ?_⟩, ?_⟩
          · intro smp1 hmem
            exact h1 smp1 ((List.dropLast_sublist s.event_queue).mem hmem)
          · intro e1 he1
            exact hns e1 ((List.dropLast_sublist s.event_queue).mem he1)
          · intro smp hobs
            cases hobs
      · have he : e = Event.SampleReceived smp := by
          rw [hqe, List.getLast?_concat] at hq
          exact (Option.some.inj hq).symm
        subst he
        have hdrop : s.event_queue.dropLast = q := by
          rw [hqe]
          exact List.dropLast_concat
        have hsmem : Event.SampleReceived smp ∈ s.event_queue := by
          rw [hqe]
          exact List.mem_append_right q (List.mem_singleton_self _)
        obtain ⟨hlt, hob⟩ := h1 smp hsmem
        refine ⟨⟨?_, ?_, Or.inl ?_⟩, ?_⟩
        · intro smp1 hmem
          rw [hdrop] at hmem
          have := hns _ hmem
          simp [isSampleEvent] at this
        · intro k hk
          rw [Option.some.inj hk] at hlt
          exact hlt
        · intro e1 he1
          rw [hdrop] at he1
          exact hns e1 he1
        · intro smp1 hobs
          injection Option.some.inj hobs with h'
          subst h'
          exact hob

/-- Strict chain seeded by an optional previous observation. -/
def chainFrom : Option Nat → List Nat → Prop
  | none, l => List.Chain' (· < ·) l
  | some k, l => List.Chain' (· < ·) (k :: l)

/-- From any state satisfying the invariant, the sample ids observed over
any run extend the seed into a strictly increasing chain. -/
theorem run_observed_chain (actions : List Action) (s : EventStreamShared)
    (lastObs : Option Nat) (h : Inv s lastObs) :
    chainFrom lastObs (sampleIds (run s actions).2.1) := by
  induction actions generalizing s lastObs with
  | nil => cases lastObs <;> simp [run, sampleIds, chainFrom]
  | cons a rest ih =>
    obtain ⟨hInv, hobs⟩ := step_Inv s a lastObs h
    have ihr := ih (step s a).state (updObs lastObs (step s a).observed) hInv
    have hsplit : (run s (a :: rest)).2.1 =
        (step s a).observed.toList ++ (run (step s a).state rest).2.1 := by
      simp [run]
    cases ho : (step s a).observed with
    | none =>
      rw [ho] at ihr
      rw [hsplit, ho]
      simpa [sampleIds, updObs] using ihr
    | some e =>
      rw [ho] at ihr
      rw [hsplit, ho]
      cases e with
      | SampleReceived smp =>
        have hred : sampleIds ((some (Event.SampleReceived smp)).toList ++
            (run (step s a).state rest).2.1) =
            smp.sample_id :: sampleIds (run (step s a).state rest).2.1 := by
          simp [sampleIds, eventSampleId]
        rw [hred]
        have ihr2 : List.Chain' (· < ·)
            (smp.sample_id :: sampleIds (run (step s a).state rest).2.1) := ihr
        cases lastObs with
        | none => exact ihr2
        | some k =>
          exact List.chain'_cons.mpr ⟨hobs smp ho k rfl, ihr2⟩
      | ResolutionChanged wd ht =>
        have hred : sampleIds ((some (Event.ResolutionChanged wd ht)).toList ++
            (run (step s a).state rest).2.1) =
            sampleIds (run (step s a).state rest).2.1 := by
          simp [sampleIds, eventSampleId]
        rw [hred]
        exact ihr
      | DurationChanged d =>
        have hred : sampleIds ((some (Event.DurationChanged d)).toList ++
            (run (step s a).state rest).2.1) =
            sampleIds (run (step s a).state rest).2.1 := by
          simp [sampleIds, eventSampleId]
        rw [hred]
        exact ihr

/-- C4: over every interleaving of decoder-callback pushes and consumer
polls starting from the initial queue state, the sequence of sample ids
carried by the `SampleReceived` events the consumer observes is
non-decreasing (in fact strictly increasing). -/
theorem claim_C4_observed_order (sid : Nat) (actions : List Action) :
    List.Chain' (· ≤ ·) (sampleIds (run (initShared sid) actions).2.1) ∧
    List.Chain' (· < ·) (sampleIds (run (initShared sid) actions).2.1) := by
  have h0 : Inv (initShared sid) none := by
    refine ⟨?_, ?_, Or.inl ?_⟩
    · intro smp hmem
      cases hmem
    · intro k hk
      cases hk
    · intro e he
      cases he
  have hch : List.Chain' (· < ·)
      (sampleIds (run (initShared sid) actions).2.1) :=
    run_observed_chain actions (initShared sid) none h0
  exact ⟨hch.imp (fun _ _ hab => Nat.le_of_lt hab), hch⟩

/-- C4 witness: the general ordering theorem instantiated on a concrete
poll/push interleaving that observes two samples. -/
theorem claim_C4_observed_order_witness :
    List.Chain' (· ≤ ·) (sampleIds (run (initShared 0)
      [Action.pollNext 1,
       Action.newSample (some { buffer := some [1, 2, 3, 4],
                                caps := some (1, 1) }),
       Action.pollNext 1,
       Action.newSample (some { buffer := some [1, 2, 3, 4],
                                caps := some (1, 1) }),
       Action.pollNext 1]).2.1) :=
  (claim_C4_observed_order 0
    [Action.pollNext 1,
     Action.newSample (some { buffer := some [1, 2, 3, 4],
                              caps := some (1, 1) }),
     Action.pollNext 1,
     Action.newSample (some { buffer := some [1, 2, 3, 4],
                              caps := some (1, 1) }),
     Action.pollNext 1]).1

/-- C8 witness: a sample pushed from the initial counter is stamped `0` and
the counter becomes `1`, the event appended in the same step. -/
theorem claim_C8_sequence_ids_witness :
    (step { waker := some 7, event_queue := [], stream_id := 4, sample_id := 0 }
      (Action.newSample
        (some { buffer := some [2, 2, 2, 2], caps := some (1, 1) }))).state.sample_id
      = 0 + 1 :=
  ((claim_C8_sequence_ids 4 []).2.2.2
    { waker := some 7, event_queue := [], stream_id := 4, sample_id := 0 }
    (Action.newSample (some { buffer := some [2, 2, 2, 2], caps := some (1, 1) }))
    { gst_sample := { buffer := some [2, 2, 2, 2], caps := some (1, 1) },
      width := 1, height := 1, stream_id := 4, sample_id := 0,
      from_preroll := false } rfl).2.1

end VideoPlayer

namespace WgpuSample

/-- Insert-then-lookup at the same key finds the inserted stream. -/
theorem lookupStream_insertStream (streams : List (Nat × Stream)) (sid : Nat)
    (st : Stream) :
    lookupStream (insertStream streams sid st) sid = some st := by
  induction streams with
  | nil => simp [insertStream, lookupStream]
  | cons hd tl ih =>
    obtain ⟨k, v⟩ := hd
    by_cases hk : k = sid <;> simp [insertStream, lookupStream, hk, ih]

/-- The stream a sample resolves to always has the sample's dimensions. -/
theorem resolveFor_dims (p : Pipeline) (s : VideoPlayer.Sample) :
    (resolveFor p s).stream.width = toU32 s.width ∧
    (resolveFor p s).stream.height = toU32 s.height := by
  unfold resolveFor resolveStream
  cases hl : lookupStream p.streams s.stream_id with
  | none => simp [Stream.new]
  | some st =>
    by_cases hd : (st.width, st.height) = (toU32 s.width, toU32 s.height)
    · have h1 : st.width = toU32 s.width := congrArg Prod.fst hd
      have h2 : st.height = toU32 s.height := congrArg Prod.snd hd
      simp [hd, h1, h2]
    · simp [hd, Stream.new]

/-- If the sample differs in identity from the resolved stream's last
processed sample (in particular when there is none), the submit guard fires. -/
theorem freshSample_of_differs (p : Pipeline) (s : VideoPlayer.Sample)
    (hid : ∀ st c, lookupStream p.streams s.stream_id = some st →
      st.cur_sample = some c → VideoPlayer.Sample.beq s c = false) :
    freshSample p s = true := by
  unfold freshSample resolveFor resolveStream
  cases hl : lookupStream p.streams s.stream_id with
  | none => simp [Stream.new, VideoPlayer.optSampleEq]
  | some st =>
    by_cases hd : (st.width, st.height) = (toU32 s.width, toU32 s.height)
    · simp only [hd, ne_eq, not_true_eq_false, if_false, Bool.not_eq_true']
      cases hc : st.cur_sample with
      | none => simp [VideoPlayer.optSampleEq]
      | some c => simp [VideoPlayer.optSampleEq, hid st c hl hc]
    · simp [hd, Stream.new, VideoPlayer.optSampleEq]

/-- Evaluation of `drawSample` when the submit guard does not fire: nothing
is allocated or sent, the drained buffer (if any) is uploaded, and the
stream records the sample as processed. -/
theorem drawSample_notFresh (p : Pipeline) (s : VideoPlayer.Sample)
    (hf : freshSample p s = false) :
    drawSample p s = some
      ({ streams := insertStream (resolveFor p s).streams s.stream_id
           { (resolveFor p s).stream with
             pendingResults := []
             t_frame :=
               match (resolveFor p s).stream.pendingResults.getLast? with
               | some b => b.contents
               | none => (resolveFor p s).stream.t_frame
             cur_sample := some s },
         nextBufId := p.nextBufId },
       { teardown := (resolveFor p s).teardown,
         created := (resolveFor p s).created,
         allocatedTransfer := [], sentToWorker := [],
         keptBuffer := (resolveFor p s).stream.pendingResults.getLast?,
         discardedBuffers := (resolveFor p s).stream.pendingResults.dropLast,
         prerollStaging := [],
         copies :=
           match (resolveFor p s).stream.pendingResults.getLast? with
           | some b => [b.contents]
           | none => [] }) := by
  have hf' : (!(VideoPlayer.optSampleEq (some s)
      (resolveFor p s).stream.cur_sample)) = false := hf
  unfold drawSample
  cases hp : s.from_preroll <;>
    cases hk : (resolveFor p s).stream.pendingResults.getLast? <;>
      simp [hf', hp, hk]

/-- Evaluation of `drawSample` for a fresh non-preroll sample: one transfer
buffer is allocated and sent to the worker, and the drained buffer (if any)
is uploaded. -/
theorem drawSample_fresh_notPreroll (p : Pipeline) (s : VideoPlayer.Sample)
    (hf : freshSample p s = true) (hp : s.from_preroll = false) :
    drawSample p s = some
      ({ streams := insertStream (resolveFor p s).streams s.stream_id
           { (resolveFor p s).stream with
             submitted := (resolveFor p s).stream.submitted ++
               [{ gst := s.gst_sample,
                  buf := { id := p.nextBufId,
                           size := ((resolveFor p s).stream.width *
                             (resolveFor p s).stream.height * 4) % 4294967296,
                           contents := List.replicate
                             (((resolveFor p s).stream.width *
                               (resolveFor p s).stream.height * 4) % 4294967296)
                             0 } }]
             pendingResults := []
             t_frame :=
               match (resolveFor p s).stream.pendingResults.getLast? with
               | some b => b.contents
               | none => (resolveFor p s).stream.t_frame
             cur_sample := some s },
         nextBufId := p.nextBufId + 1 },
       { teardown := (resolveFor p s).teardown,
         created := (resolveFor p s).created,
         allocatedTransfer :=
           [{ id := p.nextBufId,
              size := ((resolveFor p s).stream.width *
                (resolveFor p s).stream.height * 4) % 4294967296,
              contents := List.replicate
                (((resolveFor p s).stream.width *
                  (resolveFor p s).stream.height * 4) % 4294967296) 0 }],
         sentToWorker :=
           [{ gst := s.gst_sample,
              buf := { id := p.nextBufId,
                       size := ((resolveFor p s).stream.width *
                         (resolveFor p s).stream.height * 4) % 4294967296,
                       contents := List.replicate
                         (((resolveFor p s).stream.width *
                           (resolveFor p s).stream.height * 4) % 4294967296)
                         0 } }],
         keptBuffer := (resolveFor p s).stream.pendingResults.getLast?,
         discardedBuffers := (resolveFor p s).stream.pendingResults.dropLast,
         prerollStaging := [],
         copies :=
           match (resolveFor p s).stream.pendingResults.getLast? with
           | some b => [b.contents]
           | none => [] }) := by
  have hf' : (!(VideoPlayer.optSampleEq (some s)
      (resolveFor p s).stream.cur_sample)) = true := hf
  unfold drawSample
  cases hk : (resolveFor p s).stream.pendingResults.getLast? <;>
    simp [hf', hp, hk]

/-- Evaluation of `drawSample` for a fresh preroll sample with mappable
pixels: one transfer buffer is still allocated and sent to the worker, but
the upload is performed synchronously from the sample's own pixels, which
replace whatever buffer the drain produced. -/
theorem drawSample_fresh_preroll (p : Pipeline) (s : VideoPlayer.Sample)
    (data : List Nat) (hf : freshSample p s = true)
    (hp : s.from_preroll = true) (hb : s.gst_sample.buffer = some data) :
    drawSample p s = some
      ({ streams := insertStream (resolveFor p s).streams s.stream_id
           { (resolveFor p s).stream with
             submitted := (resolveFor p s).stream.submitted ++
               [{ gst := s.gst_sample,
                  buf := { id := p.nextBufId,
                           size := ((resolveFor p s).stream.width *
                             (resolveFor p s).stream.height * 4) % 4294967296,
                           contents := List.replicate
                             (((resolveFor p s).stream.width *
                               (resolveFor p s).stream.height * 4) % 4294967296)
                             0 } }]
             pendingResults := []
             t_frame := data
             cur_sample := some s },
         nextBufId := p.nextBufId + 2 },
       { teardown := (resolveFor p s).teardown,
         created := (resolveFor p s).created,
         allocatedTransfer :=
           [{ id := p.nextBufId,
              size := ((resolveFor p s).stream.width *
                (resolveFor p s).stream.height * 4) % 4294967296,
              contents := List.replicate
                (((resolveFor p s).stream.width *
                  (resolveFor p s).stream.height * 4) % 4294967296) 0 }],
         sentToWorker :=
           [{ gst := s.gst_sample,
              buf := { id := p.nextBufId,
                       size := ((resolveFor p s).stream.width *
                         (resolveFor p s).stream.height * 4) % 4294967296,
                       contents := List.replicate
                         (((resolveFor p s).stream.width *
                           (resolveFor p s).stream.height * 4) % 4294967296)
                         0 } }],
         keptBuffer := (resolveFor p s).stream.pendingResults.getLast?,
         discardedBuffers := (resolveFor p s).stream.pendingResults.dropLast,
         prerollStaging := [{ id := p.nextBufId + 1, size := data.length,
                              contents := data }],
         copies := [data] }) := by
  have hf' : (!(VideoPlayer.optSampleEq (some s)
      (resolveFor p s).stream.cur_sample)) = true := hf
  unfold drawSample
  simp [hf', hp, hb]

/-- C6: resolving a stream id creates a pipeline sized `(width, height)`
when absent; when present with a different recorded size it tears the old
one down (exit signal sent, worker joined, GPU resources released, in that
order) and replaces it with a fresh one of the new size; when present with
the same size it is returned unchanged; and a second resolution with the
same size rebuilds nothing, so a resolution change rebuilds exactly once. -/
theorem claim_C6_resolve_or_create (streams : List (Nat × Stream))
    (sid w h : Nat) :
    (lookupStream streams sid = none →
      resolveStream streams sid w h =
        { streams := insertStream streams sid (Stream.new w h),
          stream := Stream.new w h, teardown := [], created := true } ∧
      lookupStream (resolveStream streams sid w h).streams sid =
        some (Stream.new w h)) ∧
    (∀ st, lookupStream streams sid = some st →
      (st.width, st.height) = (w, h) →
      resolveStream streams sid w h =
        { streams := streams, stream := st, teardown := [], created := false }) ∧
    (∀ st, lookupStream streams sid = some st →
      (st.width, st.height) ≠ (w, h) →
      resolveStream streams sid w h =
        { streams := insertStream streams sid (Stream.new w h),
          stream := Stream.new w h, teardown := dropStreamSteps,
          created := false } ∧
      lookupStream (resolveStream streams sid w h).streams sid =
        some (Stream.new w h)) ∧
    dropStreamSteps = [TeardownStep.sendExit, TeardownStep.joinWorker,
      TeardownStep.releaseGpuResources] ∧
    (∀ st, lookupStream streams sid = some st →
      (st.width, st.height) ≠ (w, h) →
      (resolveStream (resolveStream streams sid w h).streams sid w h).teardown
          = [] ∧
      (resolveStream (resolveStream streams sid w h).streams sid w h).streams
          = (resolveStream streams sid w h).streams) := by
  refine ⟨?_, ?_, ?_, rfl, ?_⟩
  · intro hl
    constructor
    · unfold resolveStream
      simp [hl]
    · unfold resolveStream
      simp [hl, lookupStream_insertStream]
  · intro st hl hd
    unfold resolveStream
    simp [hl, hd]
  · intro st hl hd
    constructor
    · unfold resolveStream
      simp [hl, hd]
    · unfold resolveStream
      simp [hl, hd, lookupStream_insertStream]
  · intro st hl hd
    have h1 : resolveStream streams sid w h =
        { streams := insertStream streams sid (Stream.new w h),
          stream := Stream.new w h, teardown := dropStreamSteps,
          created := false } := by
      unfold resolveStream
      simp [hl, hd]
    rw [h1]
    constructor
    · unfold resolveStream
      simp [lookupStream_insertStream, Stream.new]
    · unfold resolveStream
      simp [lookupStream_insertStream, Stream.new]

/-- C6 witness: a registry tracking stream `1` at 1280x720 resolved at
640x360 is rebuilt with a full teardown of the old stream, and resolving
again at 640x360 rebuilds nothing. -/
theorem claim_C6_resolve_or_create_witness :
    resolveStream [(1, Stream.new 1280 720)] 1 640 360 =
      { streams := [(1, Stream.new 640 360)], stream := Stream.new 640 360,
        teardown := dropStreamSteps, created := false } ∧
    (resolveStream
      (resolveStream [(1, Stream.new 1280 720)] 1 640 360).streams
      1 640 360).teardown = [] :=
  ⟨((claim_C6_resolve_or_create [(1, Stream.new 1280 720)] 1 640 360).2.2.1
      (Stream.new 1280 720) rfl (by decide)).1,
   ((claim_C6_resolve_or_create [(1, Stream.new 1280 720)] 1 640 360).2.2.2.2
      (Stream.new 1280 720) rfl (by decide)).1⟩

/-- C2: a preroll sample that differs in identity from the resolved
stream's last processed sample is uploaded synchronously within
`Pipeline::draw` itself: exactly one buffer-to-texture copy carrying the
sample's own pixels is issued, and the destination texture holds those
pixels when the call returns, for every possible state of the worker's
result channel. -/
theorem claim_C2_preroll_synchronous (p : Pipeline) (s : VideoPlayer.Sample)
    (data : List Nat) (hp : s.from_preroll = true)
    (hid : ∀ st c, lookupStream p.streams s.stream_id = some st →
      st.cur_sample = some c → VideoPlayer.Sample.beq s c = false)
    (hb : s.gst_sample.buffer = some data) :
    ∃ p2 log, drawSample p s = some (p2, log) ∧
      log.copies = [data] ∧
      (∃ st, lookupStream p2.streams s.stream_id = some st ∧
        st.t_frame = data ∧ st.cur_sample = some s) := by
  have hf := freshSample_of_differs p s hid
  rw [drawSample_fresh_preroll p s data hf hp hb]
  refine ⟨_, _, rfl, rfl, ?_⟩
  exact ⟨_, lookupStream_insertStream _ _ _, rfl, rfl⟩

/-- C2 witness: a fresh pipeline processing a 1x1 preroll sample ends with
the sample's pixels in the destination texture. -/
theorem claim_C2_preroll_synchronous_witness :
    ∃ p2 log,
      drawSample { streams := [], nextBufId := 0 }
        { gst_sample := { buffer := some [8, 8, 8, 8], caps := some (1, 1) },
          width := 1, height := 1, stream_id := 1, sample_id := 0,
          from_preroll := true } = some (p2, log) ∧
      log.copies = [[8, 8, 8, 8]] ∧
      (∃ st, lookupStream p2.streams 1 = some st ∧
        st.t_frame = [8, 8, 8, 8] ∧
        st.cur_sample = some
          { gst_sample := { buffer := some [8, 8, 8, 8], caps := some (1, 1) },
            width := 1, height := 1, stream_id := 1, sample_id := 0,
            from_preroll := true }) :=
  claim_C2_preroll_synchronous { streams := [], nextBufId := 0 }
    { gst_sample := { buffer := some [8, 8, 8, 8], caps := some (1, 1) },
      width := 1, height := 1, stream_id := 1, sample_id := 0,
      from_preroll := true } [8, 8, 8, 8] rfl
    (fun _ _ hl _ => Option.noConfusion hl) rfl

/-- C5 as stated is false: identity equality with the last submitted frame
does not by itself suppress the transfer-buffer allocation, because a
dimension change rebuilds the stream (clearing `cur_sample`) first.
Concretely, a stream that last processed sample `(1, 0)` at 2x2 receives a
sample with the same identity `(1, 0)` but at 4x4: one transfer buffer is
allocated and one message is sent to the worker. -/
theorem claim_C5_counterexample :
    VideoPlayer.Sample.beq
      { gst_sample := { buffer := some [3], caps := none }, width := 4,
        height := 4, stream_id := 1, sample_id := 0, from_preroll := false }
      { gst_sample := { buffer := some [0], caps := none }, width := 2,
        height := 2, stream_id := 1, sample_id := 0, from_preroll := false }
      = true ∧
    (drawSample
      { streams := [(1,
          { cur_sample := some
              { gst_sample := { buffer := some [0], caps := none }, width := 2,
                height := 2, stream_id := 1, sample_id := 0,
                from_preroll := false },
            width := 2, height := 2, t_frame := [], submitted := [],
            pendingResults := [] })],
        nextBufId := 0 }
      { gst_sample := { buffer := some [3], caps := none }, width := 4,
        height := 4, stream_id := 1, sample_id := 0,
        from_preroll := false }).map
      (fun x => (x.2.allocatedTransfer.length, x.2.sentToWorker.length)) =
      some (1, 1) := by
  constructor
  · decide
  · rfl

/-- C5 amended: when the sample's identity equals that of the resolved
stream's last processed sample (which requires the dimensions to match the
stream's recorded size, since a size change rebuilds the stream and clears
that record), no transfer buffer is allocated and nothing is sent to the
worker; when it differs, exactly one transfer buffer is allocated, sized
`width * height * 4` in 32-bit arithmetic (equal to `width * height * 4`
whenever that product fits in a `u32`), and exactly one message carrying the
sample's native buffer is sent; hence processing the same sample twice in a
row allocates and sends exactly once in total. -/
theorem claim_C5_submit_guard (p : Pipeline) (s : VideoPlayer.Sample) :
    (freshSample p s = false →
      ∀ p2 log, drawSample p s = some (p2, log) →
        log.allocatedTransfer = [] ∧ log.sentToWorker = []) ∧
    (freshSample p s = true →
      ∀ p2 log, drawSample p s = some (p2, log) →
        log.allocatedTransfer.length = 1 ∧ log.sentToWorker.length = 1 ∧
        (∀ b ∈ log.allocatedTransfer,
          b.size = (toU32 s.width * toU32 s.height * 4) % 4294967296) ∧
        (toU32 s.width * toU32 s.height * 4 < 4294967296 →
          ∀ b ∈ log.allocatedTransfer,
            b.size = toU32 s.width * toU32 s.height * 4) ∧
        (∀ m ∈ log.sentToWorker, m.gst = s.gst_sample)) ∧
    (∀ p1 log1 p2 log2, drawSample p s = some (p1, log1) →
      drawSample p1 s = some (p2, log2) →
        log2.allocatedTransfer = [] ∧ log2.sentToWorker = []) := by
  have hdims := resolveFor_dims p s
  refine ⟨?_, ?_, ?_⟩
  · intro hf p2 log hdraw
    rw [drawSample_notFresh p s hf] at hdraw
    obtain ⟨h1, h2⟩ := Prod.mk.injEq .. ▸ Option.some.injEq .. ▸ hdraw
    subst h2
    exact ⟨rfl, rfl⟩
  · intro hf p2 log hdraw
    have hsize : ((resolveFor p s).stream.width *
        (resolveFor p s).stream.height * 4) % 4294967296 =
        (toU32 s.width * toU32 s.height * 4) % 4294967296 := by
      rw [hdims.1, hdims.2]
    cases hp : s.from_preroll with
    | false =>
      rw [drawSample_fresh_notPreroll p s hf hp] at hdraw
      obtain ⟨h1, h2⟩ := Prod.mk.injEq .. ▸ Option.some.injEq .. ▸ hdraw
      subst h2
      refine ⟨rfl, rfl, ?_, ?_, ?_⟩
      · intro b hbmem
        simp only [List.mem_singleton] at hbmem
        subst hbmem
        exact hsize
      · intro hlt b hbmem
        simp only [List.mem_singleton] at hbmem
        subst hbmem
        simpa [hsize] using Nat.mod_eq_of_lt hlt
      · intro m hm
        simp only [List.mem_singleton] at hm
        subst hm
        rfl
    | true =>
      cases hb : s.gst_sample.buffer with
      | none =>
        exfalso
        have hf' : (!(VideoPlayer.optSampleEq (some s)
            (resolveFor p s).stream.cur_sample)) = true := hf
        unfold drawSample at hdraw
        simp [hf', hp, hb] at hdraw
      | some data =>
        rw [drawSample_fresh_preroll p s data hf hp hb] at hdraw
        obtain ⟨h1, h2⟩ := Prod.mk.injEq .. ▸ Option.some.injEq .. ▸ hdraw
        subst h2
        refine ⟨rfl, rfl, ?_, ?_, ?_⟩
        · intro b hbmem
          simp only [List.mem_singleton] at hbmem
          subst hbmem
          exact hsize
        · intro hlt b hbmem
          simp only [List.mem_singleton] at hbmem
          subst hbmem
          simpa [hsize] using Nat.mod_eq_of_lt hlt
        · intro m hm
          simp only [List.mem_singleton] at hm
          subst hm
          rfl
  · intro p1 log1 p2 log2 hdraw1 hdraw2
    have hstream1 : ∃ st, lookupStream p1.streams s.stream_id = some st ∧
        st.cur_sample = some s ∧
        st.width = toU32 s.width ∧ st.height = toU32 s.height := by
      cases hf : freshSample p s with
      | false =>
        rw [drawSample_notFresh p s hf] at hdraw1
        obtain ⟨h1, _⟩ := Prod.mk.injEq .. ▸ Option.some.injEq .. ▸ hdraw1
        subst h1
        exact ⟨_, lookupStream_insertStream _ _ _, rfl, hdims.1, hdims.2⟩
      | true =>
        cases hp : s.from_preroll with
        | false =>
          rw [drawSample_fresh_notPreroll p s hf hp] at hdraw1
          obtain ⟨h1, _⟩ := Prod.mk.injEq .. ▸ Option.some.injEq .. ▸ hdraw1
          subst h1
          exact ⟨_, lookupStream_insertStream _ _ _, rfl, hdims.1, hdims.2⟩
        | true =>
          cases hb : s.gst_sample.buffer with
          | none =>
            exfalso
            have hf' : (!(VideoPlayer.optSampleEq (some s)
                (resolveFor p s).stream.cur_sample)) = true := hf
            unfold drawSample at hdraw1
            simp [hf', hp, hb] at hdraw1
          | some data =>
            rw [drawSample_fresh_preroll p s data hf hp hb] at hdraw1
            obtain ⟨h1, _⟩ := Prod.mk.injEq .. ▸ Option.some.injEq .. ▸ hdraw1
            subst h1
            exact ⟨_, lookupStream_insertStream _ _ _, rfl, hdims.1, hdims.2⟩
    obtain ⟨st, hl, hc, hw, hh⟩ := hstream1
    have hf2 : freshSample p1 s = false := by
      unfold freshSample resolveFor resolveStream
      have hd : (st.width, st.height) = (toU32 s.width, toU32 s.height) := by
        rw [hw, hh]
      simp [hl, hd, hc, VideoPlayer.optSampleEq, VideoPlayer.Sample.beq_refl]
    rw [drawSample_notFresh p1 s hf2] at hdraw2
    obtain ⟨h1, h2⟩ := Prod.mk.injEq .. ▸ Option.some.injEq .. ▸ hdraw2
    subst h2
    exact ⟨rfl, rfl⟩

/-- C5 amended witness: a fresh 1x1 sample allocates one 4-byte transfer
buffer and sends one message; reprocessing the same sample adds nothing. -/
theorem claim_C5_submit_guard_witness :
    ∀ p2 log, drawSample { streams := [], nextBufId := 0 }
      { gst_sample := { buffer := some [5, 5, 5, 5], caps := some (1, 1) },
        width := 1, height := 1, stream_id := 2, sample_id := 1,
        from_preroll := false } = some (p2, log) →
      log.allocatedTransfer.length = 1 ∧ log.sentToWorker.length = 1 :=
  fun p2 log hdraw =>
    ⟨((claim_C5_submit_guard { streams := [], nextBufId := 0 }
        { gst_sample := { buffer := some [5, 5, 5, 5], caps := some (1, 1) },
          width := 1, height := 1, stream_id := 2, sample_id := 1,
          from_preroll := false }).2.1 (by decide) p2 log hdraw).1,
     ((claim_C5_submit_guard { streams := [], nextBufId := 0 }
        { gst_sample := { buffer := some [5, 5, 5, 5], caps := some (1, 1) },
          width := 1, height := 1, stream_id := 2, sample_id := 1,
          from_preroll := false }).2.1 (by decide) p2 log hdraw).2.1⟩

/-- C7 as stated is false: when the processed frame is an unprocessed
preroll, the copy issued is not for the kept drained buffer but for the
preroll's own pixels.  Concretely, with one completed buffer holding
`[9, 9, 9, 9]` pending and a fresh 1x1 preroll sample holding
`[1, 1, 1, 1]`, the drain keeps the completed buffer yet the single copy
carries `[1, 1, 1, 1]`. -/
theorem claim_C7_counterexample :
    (drawSample
      { streams := [(1,
          { cur_sample := none, width := 1, height := 1, t_frame := [],
            submitted := [],
            pendingResults := [{ id := 50, size := 4,
                                 contents := [9, 9, 9, 9] }] })],
        nextBufId := 0 }
      { gst_sample := { buffer := some [1, 1, 1, 1], caps := none },
        width := 1, height := 1, stream_id := 1, sample_id := 0,
        from_preroll := true }).map
      (fun x => (x.2.keptBuffer, x.2.copies)) =
      some (some { id := 50, size := 4, contents := [9, 9, 9, 9] },
            [[1, 1, 1, 1]]) ∧
    [[1, 1, 1, 1]] ≠ [([9, 9, 9, 9] : List Nat)] :=
  ⟨rfl, by decide⟩

/-- C7 amended: unless the frame is an unprocessed preroll, draining with
`n >= 1` completed transfer buffers pending keeps only the most recently
completed one, discards the older `n - 1`, and issues exactly one
buffer-to-texture copy for the kept buffer; with none pending no copy is
issued and the texture is unchanged.  For an unprocessed preroll frame the
drained buffer is likewise kept off the channel but the single copy carries
the preroll's own pixels instead. -/
theorem claim_C7_drain_last_wins (p : Pipeline) (s : VideoPlayer.Sample) :
    (¬(s.from_preroll = true ∧ freshSample p s = true) →
      (∀ l b, (resolveFor p s).stream.pendingResults = l ++ [b] →
        ∀ p2 log, drawSample p s = some (p2, log) →
          log.keptBuffer = some b ∧ log.discardedBuffers = l ∧
          log.copies = [b.contents] ∧
          (∃ st, lookupStream p2.streams s.stream_id = some st ∧
            st.t_frame = b.contents ∧ st.pendingResults = [])) ∧
      ((resolveFor p s).stream.pendingResults = [] →
        ∀ p2 log, drawSample p s = some (p2, log) →
          log.copies = [] ∧
          (∃ st, lookupStream p2.streams s.stream_id = some st ∧
            st.t_frame = (resolveFor p s).stream.t_frame))) ∧
    (s.from_preroll = true → freshSample p s = true →
      ∀ data, s.gst_sample.buffer = some data →
        ∀ p2 log, drawSample p s = some (p2, log) →
          log.keptBuffer = (resolveFor p s).stream.pendingResults.getLast? ∧
          log.copies = [data] ∧
          (∃ st, lookupStream p2.streams s.stream_id = some st ∧
            st.pendingResults = [])) := by
  constructor
  · intro hnp
    constructor
    · intro l b hq p2 log hdraw
      cases hf : freshSample p s with
      | false =>
        rw [drawSample_notFresh p s hf] at hdraw
        simp only [Option.some.injEq, Prod.mk.injEq] at hdraw
        obtain ⟨h1, h2⟩ := hdraw
        subst h1 h2
        refine ⟨?_, ?_, ?_, ⟨_, lookupStream_insertStream _ _ _, ?_, rfl⟩⟩ <;>
          simp [hq, List.getLast?_concat, List.dropLast_concat]
      | true =>
        have hp : s.from_preroll = false := by
          cases hpr : s.from_preroll
          · rfl
          · exact absurd ⟨hpr, hf⟩ hnp
        rw [drawSample_fresh_notPreroll p s hf hp] at hdraw
        simp only [Option.some.injEq, Prod.mk.injEq] at hdraw
        obtain ⟨h1, h2⟩ := hdraw
        subst h1 h2
        refine ⟨?_, ?_, ?_, ⟨_, lookupStream_insertStream _ _ _, ?_, rfl⟩⟩ <;>
          simp [hq, List.getLast?_concat, List.dropLast_concat]
    · intro hq p2 log hdraw
      cases hf : freshSample p s with
      | false =>
        rw [drawSample_notFresh p s hf] at hdraw
        simp only [Option.some.injEq, Prod.mk.injEq] at hdraw
        obtain ⟨h1, h2⟩ := hdraw
        subst h1 h2
        refine ⟨?_, ⟨_, lookupStream_insertStream _ _ _, ?_⟩⟩ <;> simp [hq]
      | true =>
        have hp : s.from_preroll = false := by
          cases hpr : s.from_preroll
          · rfl
          · exact absurd ⟨hpr, hf⟩ hnp
        rw [drawSample_fresh_notPreroll p s hf hp] at hdraw
        simp only [Option.some.injEq, Prod.mk.injEq] at hdraw
        obtain ⟨h1, h2⟩ := hdraw
        subst h1 h2
        refine ⟨?_, ⟨_, lookupStream_insertStream _ _ _, ?_⟩⟩ <;> simp [hq]
  · intro hp hf data hb p2 log hdraw
    rw [drawSample_fresh_preroll p s data hf hp hb] at hdraw
    simp only [Option.some.injEq, Prod.mk.injEq] at hdraw
    obtain ⟨h1, h2⟩ := hdraw
    subst h1 h2
    exact ⟨rfl, rfl, ⟨_, lookupStream_insertStream _ _ _, rfl⟩⟩

/-- C7 amended witness: with two completed buffers pending and a non-fresh
non-preroll sample, the newer buffer is kept and copied, the older one
discarded. -/
theorem claim_C7_drain_last_wins_witness :
    ∀ p2 log, drawSample
      { streams := [(3,
          { cur_sample := some
              { gst_sample := { buffer := none, caps := none }, width := 1,
                height := 1, stream_id := 3, sample_id := 4,
                from_preroll := false },
            width := 1, height := 1, t_frame := [7, 7, 7, 7], submitted := [],
            pendingResults := [{ id := 10, size := 4, contents := [1, 1, 1, 1] },
                               { id := 11, size := 4,
                                 contents := [2, 2, 2, 2] }] })],
        nextBufId := 5 }
      { gst_sample := { buffer := none, caps := none }, width := 1,
        height := 1, stream_id := 3, sample_id := 4,
        from_preroll := false } = some (p2, log) →
      log.keptBuffer = some { id := 11, size := 4, contents := [2, 2, 2, 2] } ∧
      log.discardedBuffers = [{ id := 10, size := 4, contents := [1, 1, 1, 1] }] ∧
      log.copies = [[2, 2, 2, 2]] :=
  fun p2 log hdraw =>
    have h := ((claim_C7_drain_last_wins
      { streams := [(3,
          { cur_sample := some
              { gst_sample := { buffer := none, caps := none }, width := 1,
                height := 1, stream_id := 3, sample_id := 4,
                from_preroll := false },
            width := 1, height := 1, t_frame := [7, 7, 7, 7], submitted := [],
            pendingResults := [{ id := 10, size := 4, contents := [1, 1, 1, 1] },
                               { id := 11, size := 4,
                                 contents := [2, 2, 2, 2] }] })],
        nextBufId := 5 }
      { gst_sample := { buffer := none, caps := none }, width := 1,
        height := 1, stream_id := 3, sample_id := 4,
        from_preroll := false }).1 (by decide)).1
      [{ id := 10, size := 4, contents := [1, 1, 1, 1] }]
      { id := 11, size := 4, contents := [2, 2, 2, 2] } rfl p2 log hdraw
    ⟨h.1, h.2.1, h.2.2.1⟩

end WgpuSample
